import Mathlib

/-!
# OpenCursor agent core: shallow embedding and verification

This file embeds the core of the OpenCursor coding agent — the autonomous
agent loop (`code_agent/src/agent.py`, `autonomous_mode`), the tool
dispatcher (`code_agent/src/tools.py`, `process_tool_calls` and
`register_function`) and the conversation store / LLM client
(`code_agent/src/llm.py`, `add_message` and `chat`) — as executable Lean
definitions, and proves the spec's claims about them.

Modelling conventions:
* Python runtime values that flow through the dispatcher are modelled by the
  inductive `PyValue` (strings, ints, bools, lists, dicts, `None`) — the
  types that actually occur as tool results in the repository (the math
  tools return `int`, the file tools return `str`, the in-page browser
  search tools are declared `-> dict`).
* The Ollama chat backend is a black box, so a model response is an input
  (`GwResponse`), and a whole run consumes an oracle `Nat → GwResponse`
  giving the response to the n-th gateway call.
* Console rendering (`rich` output, `time.sleep`) has no effect on the data
  model and is omitted; everything that touches the conversation, the
  results, the execution log or the returned answer is modelled.
* A tool implementation is a Lean function `args → Except String PyValue`;
  `Except.error e` models the Python implementation raising an exception
  whose `str(e)` is `e`.
-/

/-- Python values that appear as tool-call arguments and tool results. -/
inductive PyValue where
  | str (s : String)
  | int (n : Int)
  | bool (b : Bool)
  | list (xs : List PyValue)
  | dict (entries : List (String × PyValue))
  | pynone

mutual

/-- Python `repr` for the values above (element rendering inside lists and
dicts; quotes around strings, `True` / `False`, `None`). -/
def pyRepr : PyValue → String
  | PyValue.str s => "'" ++ s ++ "'"
  | PyValue.int n => toString n
  | PyValue.bool b => if b then "True" else "False"
  | PyValue.list xs => "[" ++ pyReprList xs ++ "]"
  | PyValue.dict es => "\x7b" ++ pyReprEntries es ++ "\x7d"
  | PyValue.pynone => "None"

/-- Comma-separated `repr`s of list elements. -/
def pyReprList : List PyValue → String
  | [] => ""
  | [x] => pyRepr x
  | x :: y :: rest => pyRepr x ++ ", " ++ pyReprList (y :: rest)

/-- Comma-separated `'key': repr(value)` renderings of dict entries. -/
def pyReprEntries : List (String × PyValue) → String
  | [] => ""
  | [(k, v)] => "'" ++ k ++ "': " ++ pyRepr v
  | (k, v) :: e :: rest => "'" ++ k ++ "': " ++ pyRepr v ++ ", " ++ pyReprEntries (e :: rest)

end

/-- Python `str()`, as used by f-string interpolation in the execution log. -/
def pyStr : PyValue → String
  | PyValue.str s => s
  | v => pyRepr v

/-- Python's default whitespace for `str.strip()` (the ASCII part). -/
def isPyWhitespace (c : Char) : Bool :=
  c = ' ' ∨ c = '\t' ∨ c = '\n' ∨ c = '\r' ∨ c = '\x0b' ∨ c = '\x0c'

/-- Python `str.strip()` with no arguments: drop leading and trailing
whitespace.  (Defined over the character list so that it evaluates inside
the kernel.) -/
def pyStrip (s : String) : String :=
  String.mk (((s.data.dropWhile isPyWhitespace).reverse.dropWhile isPyWhitespace).reverse)

/-- Python dict `.get(key, default)`. -/
def dictGetD (k : String) (d : PyValue) : List (String × PyValue) → PyValue
  | [] => d
  | (k', v) :: rest => if k' = k then v else dictGetD k d rest

/-- Python dict assignment `d[k] = v`: overwrite in place if present
(insertion order is kept), otherwise append. -/
def dictInsert {α : Type} (k : String) (v : α) : List (String × α) → List (String × α)
  | [] => [(k, v)]
  | (k', v') :: rest => if k' = k then (k, v) :: rest else (k', v') :: dictInsert k v rest

/-- Python dict lookup `d[k]` / `k in d`. -/
def dictLookup {α : Type} (k : String) : List (String × α) → Option α
  | [] => Option.none
  | (k', v) :: rest => if k' = k then Option.some v else dictLookup k rest

/-- A structured tool-call request, `tc['function']['name']` /
`tc['function']['arguments']` in the source. -/
structure ToolCall where
  name : String
  args : List (String × PyValue)

/-- One message of the conversation store (`llm.py` builds the dict
`{"role": .., "content": .., ["name": ..]}`).  The `toolCalls` field records
any structured tool-call payload stored on the message; `add_message` never
sets it, which is what claim C10 is about. -/
structure Message where
  role : String
  content : PyValue
  name : Option String
  toolCalls : List ToolCall

/-- Truthiness of the optional `name` argument of `add_message`
(`if name and role == "tool"`): `None` and `""` are falsy. -/
def nameTruthy : Option String → Bool
  | Option.none => false
  | Option.some s => s ≠ ""

/-- Model of `LLMClient.add_message` (llm.py lines 40–52): builds
`{"role": role, "content": content}`, adds `"name"` only when `name` is
truthy and the role is `"tool"`, and appends — with no validation and no
failure path. -/
def add_message (msgs : List Message) (role : String) (content : PyValue)
    (nm : Option String) : List Message :=
  msgs ++ [{ role := role, content := content
           , name := if nameTruthy nm ∧ role = "tool" then nm else Option.none
           , toolCalls := [] }]

/-- A Model Gateway response: the text content and the structured tool-call
requests accumulated by `LLMClient.chat` (streaming or not). -/
structure GwResponse where
  content : String
  toolCalls : List ToolCall

/-- The conversation-store effect of one `LLMClient.chat` call
(llm.py lines 55–145): optionally seed a system message (only when one is
given, truthy, and the store is empty), append the user message when it is
non-blank (with the `" /no_think"` suffix when `no_think` is set), and after
the backend answers append the assistant message with the response's
content.  The backend response `resp` is an input since the gateway is a
black box. -/
def chatEffect (noThink : Bool) (msgs : List Message) (userMessage : String)
    (systemMessage : Option String) (resp : GwResponse) : List Message :=
  let msgs1 :=
    match systemMessage with
    | Option.some sm =>
        if sm ≠ "" ∧ msgs.isEmpty = true then
          add_message msgs "system" (PyValue.str (if noThink then sm ++ " /no_think" else sm)) Option.none
        else msgs
    | Option.none => msgs
  let msgs2 :=
    if pyStrip userMessage ≠ "" then
      add_message msgs1 "user" (PyValue.str (if noThink then userMessage ++ " /no_think" else userMessage)) Option.none
    else msgs1
  add_message msgs2 "assistant" (PyValue.str resp.content) Option.none

/-- A parameter of a registered Python function, as seen by
`inspect.signature` in `register_function`: its name, its annotation
(`Option.none` models `inspect.Parameter.empty`), and whether it has a
default value. -/
structure PyParam where
  pname : String
  annot : Option String
  hasDefault : Bool
deriving DecidableEq

/-- A registered Python callable: `__name__`, `__doc__`, its signature, and
its behaviour (`Except.error e` models raising an exception with text `e`). -/
structure PyFunc where
  fname : String
  doc : Option String
  params : List PyParam
  impl : List (String × PyValue) → Except String PyValue

/-- One property entry of a derived schema
(`{'type': t, 'description': f"Parameter {p}"}`). -/
structure ParamProp where
  pname : String
  ptype : String
  description : String
deriving Repr, DecidableEq

/-- The `'function'` part of a tool schema. -/
structure FunctionSchema where
  fname : String
  description : String
  required : List String
  properties : List ParamProp
deriving Repr, DecidableEq

/-- A tool schema dict (`{'type': 'function', 'function': {...}}`). -/
structure ToolSchema where
  ttype : String
  function : FunctionSchema
deriving Repr, DecidableEq

/-- The annotation-to-JSON-type mapping in `register_function`
(default `"string"`; `int`, `float`, `bool` are special-cased). -/
def annotToType (a : String) : String :=
  if a = "int" then "integer"
  else if a = "float" then "number"
  else if a = "bool" then "boolean"
  else "string"

/-- The per-parameter schema step of `register_function`: annotated
parameters contribute a property, and additionally a `required` entry when
they have no default. -/
def deriveParams : List PyParam → List ParamProp × List String
  | [] => ([], [])
  | p :: rest =>
      let (props, req) := deriveParams rest
      match p.annot with
      | Option.some a =>
          ({ pname := p.pname, ptype := annotToType a
           , description := "Parameter " ++ p.pname } :: props,
           if p.hasDefault then req else p.pname :: req)
      | Option.none => (props, req)

/-- The schema `register_function` derives when no custom schema is given:
name from `__name__`, description from `__doc__` (falling back to
`f"Execute {name}"` when the docstring is missing or empty). -/
def deriveSchema (f : PyFunc) : ToolSchema :=
  let (props, req) := deriveParams f.params
  { ttype := "function"
  , function :=
    { fname := f.fname
    , description :=
        match f.doc with
        | Option.some d => if d ≠ "" then d else "Execute " ++ f.fname
        | Option.none => "Execute " ++ f.fname
    , required := req
    , properties := props } }

/-- The `Tools` registry state: `available_functions` (a dict keyed by
function name) and `tools` (the advertised schema list). -/
structure Tools where
  available_functions : List (String × PyFunc)
  tools : List ToolSchema

/-- Model of `Tools.register_function` (tools.py lines 97–148): store the callable
under its `__name__` (a plain dict assignment — an existing entry is
overwritten), and append the custom schema if one is given, otherwise the
derived one.  There is no duplicate check and no failure path. -/
def register_function (t : Tools) (f : PyFunc) (customSchema : Option ToolSchema) : Tools :=
  { available_functions := dictInsert f.fname f t.available_functions
  , tools := t.tools ++ [match customSchema with
                         | Option.some s => s
                         | Option.none => deriveSchema f] }

/-- The result coercion inside `process_tool_calls` (tools.py lines 54–58):
`if isinstance(result, int): result = str(result)` (a Python `bool` is an
`int`, so it is stringified too), then `if isinstance(result, list):
result = "\n".join(result)`.  `"\n".join` raises `TypeError` when an element
is not a string; the error text stands for CPython's message, whose exact
wording no theorem depends on. -/
def coerceResult (r : PyValue) : Except String PyValue :=
  let r1 := match r with
    | PyValue.int n => PyValue.str (toString n)
    | PyValue.bool b => PyValue.str (if b then "True" else "False")
    | v => v
  match r1 with
  | PyValue.list xs =>
      match allStrings xs with
      | Option.some ss => Except.ok (PyValue.str (String.intercalate "\n" ss))
      | Option.none => Except.error "sequence item: expected str instance"
  | v => Except.ok v
where
  /-- Extract the elements of an all-string list; `Option.none` when some
  element is not a string (the `TypeError` case of `"\n".join`). -/
  allStrings : List PyValue → Option (List String)
    | [] => Option.some []
    | PyValue.str s :: rest => (allStrings rest).map fun ss => s :: ss
    | _ => Option.none

/-- Model of `Tools.process_tool_calls` (tools.py lines 27–72): for each request in
order, look the name up in `available_functions`; if found, run it inside
the `try` (an exception — including one raised by the result coercion — is
caught and turned into `"Error executing <name>: <message>"`), otherwise use
`"Function <name> not found"`; in every branch append a `tool` message with
the outcome and record the same value in the results list, then continue
with the next request.  Returns the updated conversation and the results
list (the source mutates `llm_client.messages` and returns `results`). -/
def process_tool_calls (t : Tools) : List ToolCall → List Message → List Message × List PyValue
  | [], msgs => (msgs, [])
  | tc :: rest, msgs =>
      match dictLookup tc.name t.available_functions with
      | Option.some f =>
          match f.impl tc.args with
          | Except.ok r =>
              match coerceResult r with
              | Except.ok v =>
                  let msgs' := add_message msgs "tool" v (Option.some tc.name)
                  let (m2, rs) := process_tool_calls t rest msgs'
                  (m2, v :: rs)
              | Except.error e =>
                  let em := PyValue.str ("Error executing " ++ tc.name ++ ": " ++ e)
                  let msgs' := add_message msgs "tool" em (Option.some tc.name)
                  let (m2, rs) := process_tool_calls t rest msgs'
                  (m2, em :: rs)
          | Except.error e =>
              let em := PyValue.str ("Error executing " ++ tc.name ++ ": " ++ e)
              let msgs' := add_message msgs "tool" em (Option.some tc.name)
              let (m2, rs) := process_tool_calls t rest msgs'
              (m2, em :: rs)
      | Option.none =>
          let em := PyValue.str ("Function " ++ tc.name ++ " not found")
          let msgs' := add_message msgs "tool" em (Option.some tc.name)
          let (m2, rs) := process_tool_calls t rest msgs'
          (m2, em :: rs)

/-- The result value a single tool-call request produces (the value that
`process_tool_calls` both appends as the `tool` message content and records
in its results list). -/
def runCall (t : Tools) (tc : ToolCall) : PyValue :=
  match dictLookup tc.name t.available_functions with
  | Option.some f =>
      match f.impl tc.args with
      | Except.ok r =>
          match coerceResult r with
          | Except.ok v => v
          | Except.error e => PyValue.str ("Error executing " ++ tc.name ++ ": " ++ e)
      | Except.error e => PyValue.str ("Error executing " ++ tc.name ++ ": " ++ e)
  | Option.none => PyValue.str ("Function " ++ tc.name ++ " not found")

/-- The `tool` message a single request appends to the conversation
(`add_message` keeps the name exactly when it is non-empty). -/
def dispatchMessage (t : Tools) (tc : ToolCall) : Message :=
  { role := "tool", content := runCall t tc
  , name := if tc.name ≠ "" then Option.some tc.name else Option.none
  , toolCalls := [] }

/-- Agent configuration: `self.max_iterations` (set to 100 in
`CodeAgent.__init__`, an instance attribute), the client's `no_think` flag,
the resolved system prompt (`custom_system_prompt` when given, otherwise
`SYSTEM_PROMPT` with the workspace path substituted — its text plays no
role in the loop), and the tool registry. -/
structure AgentConfig where
  maxIterations : Nat
  noThink : Bool
  systemPrompt : String
  tools : Tools

/-- The value `CodeAgent.__init__` assigns to `self.max_iterations`. -/
def defaultMaxIterations : Nat := 100

/-- The fixed follow-up instruction of the empty-terminal recovery call
(agent.py line 190). -/
def followUpPrompt : String :=
  "Now that you've completed the task, provide a summary of what you've done."

/-- One record per gateway call the loop makes: the `user_message` and the
`tools` argument passed to `LLMClient.chat`. -/
structure GwCall where
  userMsg : String
  toolsArg : Option (List ToolSchema)

/-- The execution-log entry for one tool call in iteration `i`
(agent.py lines 163–172): `read_file`, `list_dir` and `edit_file` get a
path-bearing description, every other tool is logged by name. -/
def logEntry (i : Nat) (tc : ToolCall) : String :=
  let info :=
    if tc.name = "read_file" then
      "Reading " ++ pyStr (dictGetD "target_file" (PyValue.str "") tc.args)
    else if tc.name = "list_dir" then
      "Listing " ++ pyStr (dictGetD "relative_workspace_path" (PyValue.str "") tc.args)
    else if tc.name = "edit_file" then
      "Editing " ++ pyStr (dictGetD "target_file" (PyValue.str "") tc.args)
    else tc.name
  "Step " ++ toString (i + 1) ++ ": " ++ info

/-- The outcome of a run of the autonomous loop: the returned string, the
final conversation, the execution log, and the gateway calls made. -/
structure RunResult where
  answer : String
  messages : List Message
  log : List String
  calls : List GwCall

/-- The `for i in range(self.max_iterations)` loop of `autonomous_mode`
(agent.py lines 143–200), with the remaining iteration budget `fuel`, the
current iteration index `i`, the index `k` of the next gateway call, and the
accumulated conversation, execution log and call trace.  Each iteration
calls `chat` with an empty user message and the registry's schemas; a
response with a non-empty `tool_calls` list is logged and dispatched and the
loop continues; otherwise the loop terminates — with the response's content
when it is non-blank, else after one recovery `chat` with `tools=None`.
Exhausting the budget returns the iteration-cap message. -/
def agentLoop (cfg : AgentConfig) (oracle : Nat → GwResponse) :
    Nat → Nat → Nat → List Message → List String → List GwCall → RunResult
  | 0, _, _, msgs, log, calls =>
      { answer := "I've reached the maximum number of steps (" ++ toString cfg.maxIterations
          ++ ") without completing the task. Here's what I've done so far:\n\n[Execution Summary]\n"
          ++ String.intercalate "\n" log
      , messages := msgs, log := log, calls := calls }
  | fuel + 1, i, k, msgs, log, calls =>
      let resp := oracle k
      let msgs1 := chatEffect cfg.noThink msgs "" Option.none resp
      let calls1 := calls ++ [{ userMsg := "", toolsArg := Option.some cfg.tools.tools }]
      if resp.toolCalls.isEmpty = false then
        let log1 := log ++ resp.toolCalls.map (logEntry i)
        let msgs2 := (process_tool_calls cfg.tools resp.toolCalls msgs1).1
        agentLoop cfg oracle fuel (i + 1) (k + 1) msgs2 log1 calls1
      else
        let log1 := log ++ ["Step " ++ toString (i + 1) ++ ": Final response"]
        if pyStrip resp.content ≠ "" then
          { answer := resp.content ++ "\n\n[Execution Summary]\n" ++ String.intercalate "\n" log1
          , messages := msgs1, log := log1, calls := calls1 }
        else
          let fresp := oracle (k + 1)
          let msgs2 := chatEffect cfg.noThink msgs1 followUpPrompt Option.none fresp
          let calls2 := calls1 ++ [{ userMsg := followUpPrompt, toolsArg := Option.none }]
          { answer := fresp.content ++ "\n\n[Execution Summary]\n" ++ String.intercalate "\n" log1
          , messages := msgs2, log := log1, calls := calls2 }

/-- Model of `CodeAgent.autonomous_mode` (agent.py lines 114–200): reset the
conversation, seed the system prompt and the framed task message (both via
`add_message`, so without the `/no_think` suffix), then run the loop with an
empty execution log. -/
def autonomous_mode (cfg : AgentConfig) (oracle : Nat → GwResponse) (userMessage : String) :
    RunResult :=
  let msgs : List Message := []
  let msgs := add_message msgs "system" (PyValue.str cfg.systemPrompt) Option.none
  let msgs := add_message msgs "user" (PyValue.str ("Task: " ++ userMessage)) Option.none
  agentLoop cfg oracle cfg.maxIterations 0 0 msgs [] []

/-! ## Helper lemmas about the dispatcher -/

/-- The dispatcher `process_tool_calls` threads the conversation through but computes each
result independently: the conversation grows by one `tool` message per
request and the results list is the per-request outcomes in request order. -/
theorem process_tool_calls_eq (t : Tools) :
    ∀ (tcs : List ToolCall) (msgs : List Message),
      process_tool_calls t tcs msgs =
        (msgs ++ tcs.map (dispatchMessage t), tcs.map (runCall t)) := by
  intro tcs
  induction tcs with
  | nil => intro msgs; simp [process_tool_calls]
  | cons tc rest ih =>
    intro msgs
    simp only [process_tool_calls]
    cases hl : dictLookup tc.name t.available_functions with
    | none =>
        have hrc : runCall t tc = PyValue.str ("Function " ++ tc.name ++ " not found") := by
          simp [runCall, hl]
        simp [ih, add_message, dispatchMessage, nameTruthy, hrc]
    | some f =>
        cases hr : f.impl tc.args with
        | error e =>
            have hrc : runCall t tc = PyValue.str ("Error executing " ++ tc.name ++ ": " ++ e) := by
              simp [runCall, hl, hr]
            simp [ih, add_message, dispatchMessage, nameTruthy, hrc, hr]
        | ok r =>
            cases hc : coerceResult r with
            | error e =>
                have hrc : runCall t tc
                    = PyValue.str ("Error executing " ++ tc.name ++ ": " ++ e) := by
                  simp [runCall, hl, hr, hc]
                simp [ih, add_message, dispatchMessage, nameTruthy, hrc, hr, hc]
            | ok v =>
                have hrc : runCall t tc = v := by simp [runCall, hl, hr, hc]
                simp [ih, add_message, dispatchMessage, nameTruthy, hrc, hr, hc]

/-- A registry with no registered tools (a fresh `Tools` instance before any
registration). -/
def emptyTools : Tools := { available_functions := [], tools := [] }

/-- Test fixture: a tool whose implementation always raises. -/
def boomFunc : PyFunc :=
  { fname := "boom", doc := Option.none, params := []
  , impl := fun _ => Except.error "kaboom" }

/-- Test fixture: a registry containing only `boomFunc`. -/
def boomTools : Tools :=
  { available_functions := [("boom", boomFunc)], tools := [] }

/-- C4: for every tool-call request whose resolved implementation raises,
`process_tool_calls` catches the exception, appends a `tool` message whose
content is exactly `"Error executing <tool_name>: <message>"` tagged with
the tool's name, records the same string as that request's result entry, and
continues with the next request.  The equation below is the source's
`except` branch: the turn proceeds with `rest` on the conversation extended
by exactly that message, and the dispatcher — a total function — never lets
the exception propagate. -/
theorem dispatch_catches_tool_exception (t : Tools) (msgs : List Message) (tc : ToolCall)
    (rest : List ToolCall) (f : PyFunc) (e : String)
    (hf : dictLookup tc.name t.available_functions = Option.some f)
    (he : f.impl tc.args = Except.error e) :
    process_tool_calls t (tc :: rest) msgs =
      ((process_tool_calls t rest
          (add_message msgs "tool" (PyValue.str ("Error executing " ++ tc.name ++ ": " ++ e))
            (Option.some tc.name))).1,
       PyValue.str ("Error executing " ++ tc.name ++ ": " ++ e)
         :: (process_tool_calls t rest
              (add_message msgs "tool" (PyValue.str ("Error executing " ++ tc.name ++ ": " ++ e))
                (Option.some tc.name))).2) := by
  simp only [process_tool_calls, hf, he]

/-- Witness for C4: the failing tool `boom` yields the
`"Error executing boom: kaboom"` entry and the dispatch returns normally. -/
theorem dispatch_catches_tool_exception_witness :
    dictLookup "boom" boomTools.available_functions = Option.some boomFunc ∧
    boomFunc.impl [] = Except.error "kaboom" ∧
    process_tool_calls boomTools [{ name := "boom", args := [] }] [] =
      ((process_tool_calls boomTools []
          (add_message [] "tool" (PyValue.str ("Error executing " ++ "boom" ++ ": " ++ "kaboom"))
            (Option.some "boom"))).1,
       PyValue.str ("Error executing " ++ "boom" ++ ": " ++ "kaboom")
         :: (process_tool_calls boomTools []
              (add_message [] "tool" (PyValue.str ("Error executing " ++ "boom" ++ ": " ++ "kaboom"))
                (Option.some "boom"))).2) :=
  ⟨rfl, rfl,
   dispatch_catches_tool_exception boomTools [] { name := "boom", args := [] } [] boomFunc
     "kaboom" rfl rfl⟩

/-- Test fixture: two distinct tools with identical output. -/
def alphaFunc : PyFunc :=
  { fname := "alpha", doc := Option.none, params := []
  , impl := fun _ => Except.ok (PyValue.str "same") }

/-- Test fixture: a second tool with the same output as `alphaFunc`. -/
def betaFunc : PyFunc :=
  { fname := "beta", doc := Option.none, params := []
  , impl := fun _ => Except.ok (PyValue.str "same") }

/-- Test fixture: registry holding `alphaFunc` and `betaFunc`. -/
def twinTools : Tools :=
  { available_functions := [("alpha", alphaFunc), ("beta", betaFunc)], tools := [] }

/-- Counterexample to C5 as stated: `process_tool_calls` does not return
`(tool_name, result_text)` pairs — its results list holds the result values
only.  Dispatching `alpha` and dispatching `beta` return the *same* results
list even though the tool names differ, so no pairing with the tool name is
part of the return value; and for the unregistered tool `frobnicate` the
returned entry is the bare string `"Function frobnicate not found"`, not the
pair `("frobnicate", "Function frobnicate not found")`. -/
theorem dispatch_returns_bare_results :
    (process_tool_calls twinTools [{ name := "alpha", args := [] }] []).2
      = (process_tool_calls twinTools [{ name := "beta", args := [] }] []).2 ∧
    "alpha" ≠ "beta" ∧
    (process_tool_calls emptyTools [{ name := "frobnicate", args := [] }] []).2
      = [PyValue.str "Function frobnicate not found"] := by
  refine ⟨rfl, by decide, rfl⟩

/-- C5 (amended): `process_tool_calls` processes the requests sequentially
in request order and returns one result entry per request — the result
*texts* only, in order (the tool name is not part of the returned entries;
it is recorded on the appended `tool` message instead).  For a request
naming an unregistered tool the entry is `"Function <name> not found"`, a
`tool` message with that text is appended, and processing continues with the
next request instead of aborting the turn. -/
theorem dispatch_sequential_one_entry_per_request :
    (∀ (t : Tools) (tcs : List ToolCall) (msgs : List Message),
       process_tool_calls t tcs msgs
         = (msgs ++ tcs.map (dispatchMessage t), tcs.map (runCall t))) ∧
    (∀ (t : Tools) (nm : String) (args : List (String × PyValue)),
       dictLookup nm t.available_functions = Option.none →
       runCall t { name := nm, args := args }
         = PyValue.str ("Function " ++ nm ++ " not found")) := by
  constructor
  · exact process_tool_calls_eq
  · intro t nm args h
    simp [runCall, h]

/-- Witness for C5 (amended): instantiated on the unregistered tool
`frobnicate` over the empty registry. -/
theorem dispatch_sequential_one_entry_per_request_witness :
    dictLookup "frobnicate" emptyTools.available_functions = Option.none ∧
    process_tool_calls emptyTools [{ name := "frobnicate", args := [] }] []
      = ([] ++ [({ name := "frobnicate", args := [] } : ToolCall)].map (dispatchMessage emptyTools),
         [({ name := "frobnicate", args := [] } : ToolCall)].map (runCall emptyTools)) ∧
    runCall emptyTools { name := "frobnicate", args := [] }
      = PyValue.str ("Function " ++ "frobnicate" ++ " not found") :=
  ⟨rfl,
   dispatch_sequential_one_entry_per_request.1 emptyTools [{ name := "frobnicate", args := [] }] [],
   dispatch_sequential_one_entry_per_request.2 emptyTools "frobnicate" [] rfl⟩

/-- Whether a Python value is text (a `str`). -/
def isTextContent : PyValue → Bool
  | PyValue.str _ => true
  | _ => false

/-- The value a successfully executing tool contributes after the
dispatcher's coercion step: the coerced result, or — when the coercion
itself raises, i.e. `"\n".join` on a list with a non-string element — the
guarded `"Error executing …"` text. -/
def successValue (nm : String) (r : PyValue) : PyValue :=
  match coerceResult r with
  | Except.ok v => v
  | Except.error e => PyValue.str ("Error executing " ++ nm ++ ": " ++ e)

/-- Evaluating `allStrings` on a list that is literally all strings succeeds with the
underlying strings. -/
theorem allStrings_map_str (ss : List String) :
    coerceResult.allStrings (ss.map PyValue.str) = Option.some ss := by
  induction ss with
  | nil => rfl
  | cons s rest ih => simp [coerceResult.allStrings, ih]

/-- Test fixture: the in-page DOM search tool, which the repository
registers (tool_browser.py, `search_in_docs_with_dom_element`) and which
returns a `dict` on failure. -/
def domSearchFunc : PyFunc :=
  { fname := "search_in_docs_with_dom_element", doc := Option.none, params := []
  , impl := fun _ => Except.ok (PyValue.dict
      [("error", PyValue.str "Failed to click search element"),
       ("results", PyValue.list [])]) }

/-- Test fixture: a registry holding only `domSearchFunc`. -/
def domSearchTools : Tools :=
  { available_functions := [("search_in_docs_with_dom_element", domSearchFunc)], tools := [] }

/-- Counterexample to C8 as stated: the dispatcher coerces only `int` and
`list` results, so a successfully executing tool that returns a `dict` —
as the registered `search_in_docs_with_dom_element` tool does — gets its
result appended as the tool message's content *uncoerced*; the content of
that appended tool message is not text. -/
theorem dispatch_appends_nontext_dict :
    (process_tool_calls domSearchTools
        [{ name := "search_in_docs_with_dom_element", args := [] }] []).1 =
      [{ role := "tool"
       , content := PyValue.dict
           [("error", PyValue.str "Failed to click search element"),
            ("results", PyValue.list [])]
       , name := Option.some "search_in_docs_with_dom_element"
       , toolCalls := [] }] ∧
    isTextContent (PyValue.dict
        [("error", PyValue.str "Failed to click search element"),
         ("results", PyValue.list [])]) = false := by
  constructor
  · rfl
  · rfl

/-- C8 (amended): on a successful tool execution the dispatcher's coercion
applies exactly the source's two `isinstance` checks — an `int` (including a
Python `bool`) is stringified and a `list` is newline-joined (a list with a
non-string element makes the join raise inside the guarded block, which is
recorded as an `"Error executing …"` text) — so results that are strings,
ints, bools or lists always yield text content, while results of any other
type (dicts, `None`) are appended to the tool message uncoerced and the
content is then not text. -/
theorem dispatch_result_coercion :
    (∀ (t : Tools) (tc : ToolCall) (f : PyFunc) (r : PyValue),
       dictLookup tc.name t.available_functions = Option.some f →
       f.impl tc.args = Except.ok r →
       runCall t tc = successValue tc.name r) ∧
    (∀ (nm : String) (n : Int), successValue nm (PyValue.int n) = PyValue.str (toString n)) ∧
    (∀ (nm : String) (ss : List String),
       successValue nm (PyValue.list (ss.map PyValue.str))
         = PyValue.str (String.intercalate "\n" ss)) ∧
    (∀ (nm : String) (r : PyValue),
       (match r with
        | PyValue.str _ => true | PyValue.int _ => true
        | PyValue.bool _ => true | PyValue.list _ => true
        | _ => false) = true →
       isTextContent (successValue nm r) = true) ∧
    (∀ (nm : String) (es : List (String × PyValue)),
       successValue nm (PyValue.dict es) = PyValue.dict es) ∧
    (∀ nm : String, successValue nm PyValue.pynone = PyValue.pynone) := by
  refine ⟨?_, ?_, ?_, ?_, ?_, ?_⟩
  · intro t tc f r hf hr
    simp [runCall, successValue, hf, hr]
  · intro nm n
    simp [successValue, coerceResult]
  · intro nm ss
    simp [successValue, coerceResult, allStrings_map_str]
  · intro nm r h
    cases r with
    | str s => simp [successValue, coerceResult, isTextContent]
    | int n => simp [successValue, coerceResult, isTextContent]
    | bool b => simp [successValue, coerceResult, isTextContent]
    | list xs =>
        cases hx : coerceResult.allStrings xs with
        | none => simp [successValue, coerceResult, hx, isTextContent]
        | some ss => simp [successValue, coerceResult, hx, isTextContent]
    | dict es => simp at h
    | pynone => simp at h
  · intro nm es
    simp [successValue, coerceResult]
  · intro nm
    simp [successValue, coerceResult]

/-- Witness for C8 (amended): the dict-returning registered search tool
evaluated concretely — the hypothesis-bearing first conjunct instantiated
on `domSearchTools`. -/
theorem dispatch_result_coercion_witness :
    dictLookup "search_in_docs_with_dom_element" domSearchTools.available_functions
        = Option.some domSearchFunc ∧
    domSearchFunc.impl [] = Except.ok (PyValue.dict
        [("error", PyValue.str "Failed to click search element"),
         ("results", PyValue.list [])]) ∧
    runCall domSearchTools { name := "search_in_docs_with_dom_element", args := [] }
      = successValue "search_in_docs_with_dom_element"
          (PyValue.dict
            [("error", PyValue.str "Failed to click search element"),
             ("results", PyValue.list [])]) ∧
    successValue "add" (PyValue.int 4) = PyValue.str "4" :=
  ⟨rfl, rfl,
   dispatch_result_coercion.1 domSearchTools
     { name := "search_in_docs_with_dom_element", args := [] } domSearchFunc
     (PyValue.dict
       [("error", PyValue.str "Failed to click search element"),
        ("results", PyValue.list [])]) rfl rfl,
   dispatch_result_coercion.2.1 "add" 4⟩

/-! ## Registry (claim C6) -/

/-- Looking up a key right after a dict assignment yields the assigned
value. -/
theorem dictLookup_dictInsert {α : Type} (k : String) (v : α) :
    ∀ l : List (String × α), dictLookup k (dictInsert k v l) = Option.some v := by
  intro l
  induction l with
  | nil => simp [dictInsert, dictLookup]
  | cons p rest ih =>
    by_cases h : p.1 = k
    · simp [dictInsert, dictLookup, h]
    · cases p with
      | mk k' v' =>
        simp only [dictInsert, dictLookup]
        simp at h
        simp [dictLookup, h, ih]

/-- How many schemas in the advertised list carry a given function name. -/
def countNamed (nm : String) (ts : List ToolSchema) : Nat :=
  (ts.filter fun s => s.function.fname = nm).length

/-- Test fixture: the `add_two_numbers` math tool (tools.py lines 858–869):
two annotated `int` parameters without defaults. -/
def addTwoNumbersFunc : PyFunc :=
  { fname := "add_two_numbers"
  , doc := Option.some "Add two numbers"
  , params := [{ pname := "a", annot := Option.some "int", hasDefault := false },
               { pname := "b", annot := Option.some "int", hasDefault := false }]
  , impl := fun args =>
      match dictLookup "a" args, dictLookup "b" args with
      | Option.some (PyValue.int a), Option.some (PyValue.int b) =>
          Except.ok (PyValue.int (a + b))
      | _, _ => Except.error "unsupported operand type(s)" }

/-- Test fixture: `emptyTools` after one registration of
`addTwoNumbersFunc`. -/
def onceRegistered : Tools := register_function emptyTools addTwoNumbersFunc Option.none

/-- Counterexample to C6 as stated: registering `add_two_numbers` a second
time does not fail — it is silently accepted, and afterwards the advertised
schema sequence contains *two* schemas named `add_two_numbers`, violating
the claimed one-schema-per-name invariant.  (The repository actually does
register a tool twice: `CodeAgent.register_tools` registers the playwright
search tool on top of `register_all_tools`, which already registered it.) -/
theorem register_duplicate_accepted :
    (register_function onceRegistered addTwoNumbersFunc Option.none).tools.map
        (fun s => s.function.fname) = ["add_two_numbers", "add_two_numbers"] ∧
    (register_function onceRegistered addTwoNumbersFunc Option.none).tools.length = 2 := by
  constructor
  · rfl
  · rfl

/-- C6 (amended): registering a tool under a name that is already
registered does not fail: the callable stored under the name is overwritten
and one more schema is appended, so a name whose schema is already
advertised ends up with at least two schemas in the advertised sequence. -/
theorem register_function_duplicate_overwrites (t : Tools) (f : PyFunc)
    (h : 1 ≤ countNamed f.fname t.tools) :
    dictLookup f.fname (register_function t f Option.none).available_functions
        = Option.some f ∧
    (register_function t f Option.none).tools.length = t.tools.length + 1 ∧
    2 ≤ countNamed f.fname (register_function t f Option.none).tools := by
  refine ⟨?_, ?_, ?_⟩
  · simp [register_function, dictLookup_dictInsert]
  · simp [register_function]
  · have hd : (deriveSchema f).function.fname = f.fname := rfl
    simp only [register_function, countNamed, List.filter_append, List.length_append]
    simp only [countNamed] at h
    have : (List.filter (fun s => decide (s.function.fname = f.fname))
        [deriveSchema f]).length = 1 := by
      simp [List.filter, hd]
    omega

/-- Witness for C6 (amended): the doubly-registered `add_two_numbers`
fixture. -/
theorem register_function_duplicate_overwrites_witness :
    1 ≤ countNamed "add_two_numbers" onceRegistered.tools ∧
    (dictLookup "add_two_numbers"
        (register_function onceRegistered addTwoNumbersFunc Option.none).available_functions
      = Option.some addTwoNumbersFunc ∧
    (register_function onceRegistered addTwoNumbersFunc Option.none).tools.length
      = onceRegistered.tools.length + 1 ∧
    2 ≤ countNamed "add_two_numbers"
        (register_function onceRegistered addTwoNumbersFunc Option.none).tools) :=
  ⟨by decide,
   register_function_duplicate_overwrites onceRegistered addTwoNumbersFunc (by decide)⟩

/-! ## Conversation store (claims C7, C10) -/

/-- Counterexample to C7 as stated: `add_message` never fails.  An append
with the invalid role `"frobnicate"` is silently accepted and stored, and a
`tool` append with an empty tool name is silently accepted too (the name is
simply dropped) — there is no `InvalidMessage` error anywhere in
`add_message`. -/
theorem add_message_accepts_invalid :
    add_message [] "frobnicate" (PyValue.str "hi") Option.none =
      [{ role := "frobnicate", content := PyValue.str "hi"
       , name := Option.none, toolCalls := [] }] ∧
    add_message [] "tool" (PyValue.str "result") (Option.some "") =
      [{ role := "tool", content := PyValue.str "result"
       , name := Option.none, toolCalls := [] }] := by
  constructor
  · simp [add_message, nameTruthy]
  · simp [add_message, nameTruthy]

/-- C7 (amended): `add_message` performs no validation and has no failure
path: for every role (including roles outside
system/user/assistant/tool) and every optional tool name it appends exactly
one message with the given role and content; the tool name is kept on the
message exactly when it is non-empty and the role is `"tool"`, and is
silently dropped otherwise. -/
theorem add_message_never_fails (msgs : List Message) (role : String)
    (content : PyValue) (nm : Option String) :
    (add_message msgs role content nm).length = msgs.length + 1 ∧
    ∃ m : Message, add_message msgs role content nm = msgs ++ [m] ∧
      m.role = role ∧ m.content = content ∧ m.toolCalls = [] ∧
      m.name = (if nameTruthy nm ∧ role = "tool" then nm else Option.none) := by
  refine ⟨by simp [add_message], ⟨_, rfl, rfl, rfl, rfl, rfl⟩⟩

/-- How many messages of the conversation carry a given role. -/
def countRole (role : String) (msgs : List Message) : Nat :=
  (msgs.filter fun m => m.role = role).length

/-- The count `countRole` distributes over append. -/
theorem countRole_append (role : String) (xs ys : List Message) :
    countRole role (xs ++ ys) = countRole role xs + countRole role ys := by
  simp [countRole, List.filter_append]

/-- The appended-message decomposition of one `chat` call: the conversation
grows by a (possibly empty) block of system/user seeds followed by exactly
the assistant message carrying the response's content; none of the appended
messages stores a tool-call payload. -/
theorem chatEffect_decomp (nt : Bool) (msgs : List Message) (um : String)
    (sm : Option String) (resp : GwResponse) :
    ∃ pre : List Message,
      (∀ m ∈ pre, (m.role = "system" ∨ m.role = "user") ∧ m.toolCalls = []) ∧
      chatEffect nt msgs um sm resp
        = msgs ++ pre ++ [{ role := "assistant", content := PyValue.str resp.content
                          , name := Option.none, toolCalls := [] }] := by
  classical
  simp only [chatEffect]
  set sysMsg : Message :=
    { role := "system"
    , content := PyValue.str (if nt then (sm.getD "") ++ " /no_think" else sm.getD "")
    , name := Option.none, toolCalls := [] } with hsys
  set userMsg : Message :=
    { role := "user"
    , content := PyValue.str (if nt then um ++ " /no_think" else um)
    , name := Option.none, toolCalls := [] } with huser
  cases sm with
  | none =>
    by_cases hu : pyStrip um ≠ ""
    · refine ⟨[userMsg], ?_, ?_⟩
      · intro m hm; simp at hm; subst hm; simp [huser]
      · simp [hu, add_message, nameTruthy, huser]
    · refine ⟨[], by simp, ?_⟩
      simp [hu, add_message, nameTruthy]
  | some s =>
    by_cases hs : s ≠ "" ∧ msgs.isEmpty = true
    · by_cases hu : pyStrip um ≠ ""
      · refine ⟨[sysMsg, userMsg], ?_, ?_⟩
        · intro m hm; simp at hm
          rcases hm with h | h <;> subst h <;> simp [hsys, huser]
        · simp [hs, hu, add_message, nameTruthy, hsys, huser]
      · refine ⟨[sysMsg], ?_, ?_⟩
        · intro m hm; simp at hm; subst hm; simp [hsys]
        · simp [hs, hu, add_message, nameTruthy, hsys]
    · by_cases hu : pyStrip um ≠ ""
      · refine ⟨[userMsg], ?_, ?_⟩
        · intro m hm; simp at hm; subst hm; simp [huser]
        · dsimp only
          rw [if_neg hs]
          simp [hu, add_message, nameTruthy, huser]
      · refine ⟨[], by simp, ?_⟩
        dsimp only
        rw [if_neg hs]
        simp [hu, add_message, nameTruthy]

/-- C10: every `LLMClient.chat` call appends exactly one assistant message,
whose content is the response's text (possibly the empty string).  Any
other messages the call appends (the optional seeded system message, the
optional user message) have non-assistant roles, and no appended message
stores the structured tool-call requests — `add_message` never sets a
tool-call payload on a stored message, so the requests survive only as the
textual results later appended as `tool` messages. -/
theorem chat_appends_exactly_one_assistant (nt : Bool) (msgs : List Message)
    (um : String) (sm : Option String) (resp : GwResponse) :
    ∃ pre : List Message,
      chatEffect nt msgs um sm resp
        = msgs ++ pre ++ [{ role := "assistant", content := PyValue.str resp.content
                          , name := Option.none, toolCalls := [] }] ∧
      (∀ m ∈ pre, m.role ≠ "assistant") ∧
      (∀ m ∈ pre, m.toolCalls = []) ∧
      countRole "assistant" (chatEffect nt msgs um sm resp)
        = countRole "assistant" msgs + 1 := by
  obtain ⟨pre, hpre, heq⟩ := chatEffect_decomp nt msgs um sm resp
  have hrole : ∀ m ∈ pre, m.role ≠ "assistant" := by
    intro m hm
    rcases (hpre m hm).1 with h | h <;> simp [h]
  have hzero : countRole "assistant" pre = 0 := by
    simp only [countRole, List.length_eq_zero]
    apply List.filter_eq_nil_iff.mpr
    intro m hm
    simpa using hrole m hm
  refine ⟨pre, heq, hrole, fun m hm => (hpre m hm).2, ?_⟩
  rw [heq, countRole_append, countRole_append, hzero]
  simp [countRole]

/-! ## Agent loop (claims C1, C2, C3) -/

/-- The loop never drops recorded gateway calls: the final trace is at
least as long as the accumulated one. -/
theorem agentLoop_calls_mono (cfg : AgentConfig) (oracle : Nat → GwResponse) :
    ∀ (fuel i k : Nat) (msgs : List Message) (log : List String) (calls : List GwCall),
      calls.length ≤ (agentLoop cfg oracle fuel i k msgs log calls).calls.length := by
  intro fuel
  induction fuel with
  | zero => intro i k msgs log calls; simp [agentLoop]
  | succ f ih =>
    intro i k msgs log calls
    simp only [agentLoop]
    by_cases h : (oracle k).toolCalls.isEmpty = false
    · rw [if_pos h]
      calc calls.length
            ≤ (calls ++ [({ userMsg := "", toolsArg := Option.some cfg.tools.tools } : GwCall)]).length := by
            simp
        _ ≤ _ := ih (i + 1) (k + 1) _ _ _
    · rw [if_neg h]
      by_cases hc : pyStrip (oracle k).content ≠ ""
      · rw [if_pos hc]; simp
      · rw [if_neg hc]; simp

/-- Counterexample to C1 as stated: with the registry empty and a gateway
stub that always answers with content `"hello"` plus one tool call, a full
run at the source's configured maximum of 100 iterations makes exactly 100
gateway calls — the 100th response has a non-empty `tool_calls` sequence,
yet no further gateway call follows it (the loop exits capped instead), so a
tool-call response is *not* always followed by another gateway call. -/
def capOracle : Nat → GwResponse := fun _ =>
  { content := "hello", toolCalls := [{ name := "frobnicate", args := [] }] }

/-- Test fixture: configuration with the source's default iteration cap and
no registered tools. -/
def capCfg : AgentConfig :=
  { maxIterations := defaultMaxIterations, noThink := true
  , systemPrompt := "prompt", tools := emptyTools }

/-- Counterexample theorem for C1 (see `capOracle`). -/
theorem toolcall_response_not_always_followed_by_call :
    (capOracle 99).toolCalls ≠ [] ∧
    (autonomous_mode capCfg capOracle "task").calls.length = 100 := by
  constructor
  · intro h
    simp [capOracle] at h
  · rfl

/-- C1 (amended): a gateway response with a non-empty `tool_calls` sequence
is always treated as non-terminal — the assistant message is appended, all
its tool calls are dispatched, the iteration is logged, and the loop
continues; its `content` is never returned as the final answer on that
turn.  Another gateway call follows whenever the iteration budget is not
yet exhausted (at the final allowed iteration the loop instead exits with
the capped-outcome message). -/
theorem toolcall_iteration_nonterminal (cfg : AgentConfig) (oracle : Nat → GwResponse)
    (fuel i k : Nat) (msgs : List Message) (log : List String) (calls : List GwCall)
    (h : (oracle k).toolCalls ≠ []) :
    agentLoop cfg oracle (fuel + 1) i k msgs log calls =
      agentLoop cfg oracle fuel (i + 1) (k + 1)
        (process_tool_calls cfg.tools (oracle k).toolCalls
          (chatEffect cfg.noThink msgs "" Option.none (oracle k))).1
        (log ++ (oracle k).toolCalls.map (logEntry i))
        (calls ++ [{ userMsg := "", toolsArg := Option.some cfg.tools.tools }]) ∧
    (1 ≤ fuel →
      calls.length + 2 ≤ (agentLoop cfg oracle (fuel + 1) i k msgs log calls).calls.length) := by
  have hne : (oracle k).toolCalls.isEmpty = false := by
    cases htc : (oracle k).toolCalls with
    | nil => exact absurd htc h
    | cons a l => rfl
  have hunfold : agentLoop cfg oracle (fuel + 1) i k msgs log calls =
      agentLoop cfg oracle fuel (i + 1) (k + 1)
        (process_tool_calls cfg.tools (oracle k).toolCalls
          (chatEffect cfg.noThink msgs "" Option.none (oracle k))).1
        (log ++ (oracle k).toolCalls.map (logEntry i))
        (calls ++ [{ userMsg := "", toolsArg := Option.some cfg.tools.tools }]) := by
    simp only [agentLoop]
    rw [if_pos hne]
  refine ⟨hunfold, ?_⟩
  intro hf
  rw [hunfold]
  cases fuel with
  | zero => omega
  | succ f =>
    have h2 : (oracle (k + 1)).toolCalls.isEmpty = false
        ∨ (oracle (k + 1)).toolCalls.isEmpty = true := by
      cases (oracle (k + 1)).toolCalls.isEmpty with
      | false => exact Or.inl rfl
      | true => exact Or.inr rfl
    have key : ∀ (i' : Nat) (msgs' : List Message) (log' : List String) (calls' : List GwCall),
        calls'.length + 1 ≤ (agentLoop cfg oracle (f + 1) i' (k + 1) msgs' log' calls').calls.length := by
      intro i' msgs' log' calls'
      simp only [agentLoop]
      rcases h2 with hh | hh
      · rw [if_pos hh]
        calc calls'.length + 1
            = (calls' ++ [({ userMsg := "", toolsArg := Option.some cfg.tools.tools } : GwCall)]).length := by
              simp
          _ ≤ _ := agentLoop_calls_mono cfg oracle f (i' + 1) (k + 1 + 1) _ _ _
      · rw [if_neg (by simp [hh])]
        by_cases hc : pyStrip (oracle (k + 1)).content ≠ ""
        · rw [if_pos hc]; simp
        · rw [if_neg hc]; simp
    calc calls.length + 2
        = (calls ++ [({ userMsg := "", toolsArg := Option.some cfg.tools.tools } : GwCall)]).length + 1 := by
          simp
      _ ≤ _ := key (i + 1) _ _ _

/-- Witness for C1 (amended): one iteration of the constant tool-calling
stub, with budget remaining. -/
theorem toolcall_iteration_nonterminal_witness :
    (capOracle 0).toolCalls ≠ [] ∧
    (agentLoop capCfg capOracle 2 0 0 [] [] [] =
      agentLoop capCfg capOracle 1 1 1
        (process_tool_calls capCfg.tools (capOracle 0).toolCalls
          (chatEffect capCfg.noThink [] "" Option.none (capOracle 0))).1
        ([] ++ (capOracle 0).toolCalls.map (logEntry 0))
        ([] ++ [{ userMsg := "", toolsArg := Option.some capCfg.tools.tools }]) ∧
     (1 ≤ 1 →
       List.length ([] : List GwCall) + 2 ≤ (agentLoop capCfg capOracle 2 0 0 [] [] []).calls.length)) :=
  ⟨by intro h; simp [capOracle] at h,
   toolcall_iteration_nonterminal capCfg capOracle 1 0 0 [] [] []
     (by intro h; simp [capOracle] at h)⟩

/-- If every response the loop will consume carries a tool call, the loop
spends its whole budget, makes one gateway call per remaining iteration,
and returns the capped-outcome message built from its final execution
log. -/
theorem agentLoop_capped (cfg : AgentConfig) (oracle : Nat → GwResponse) :
    ∀ (fuel i k : Nat) (msgs : List Message) (log : List String) (calls : List GwCall),
      (∀ j, j < fuel → (oracle (k + j)).toolCalls ≠ []) →
      (agentLoop cfg oracle fuel i k msgs log calls).answer =
        "I've reached the maximum number of steps (" ++ toString cfg.maxIterations
          ++ ") without completing the task. Here's what I've done so far:\n\n[Execution Summary]\n"
          ++ String.intercalate "\n" (agentLoop cfg oracle fuel i k msgs log calls).log ∧
      (agentLoop cfg oracle fuel i k msgs log calls).calls.length = calls.length + fuel := by
  intro fuel
  induction fuel with
  | zero =>
    intro i k msgs log calls h
    simp [agentLoop]
  | succ f ih =>
    intro i k msgs log calls h
    have h0 : (oracle k).toolCalls ≠ [] := by
      have := h 0 (Nat.succ_pos f)
      simpa using this
    have hne : (oracle k).toolCalls.isEmpty = false := by
      cases htc : (oracle k).toolCalls with
      | nil => exact absurd htc h0
      | cons a l => rfl
    have hunfold : agentLoop cfg oracle (f + 1) i k msgs log calls =
        agentLoop cfg oracle f (i + 1) (k + 1)
          (process_tool_calls cfg.tools (oracle k).toolCalls
            (chatEffect cfg.noThink msgs "" Option.none (oracle k))).1
          (log ++ (oracle k).toolCalls.map (logEntry i))
          (calls ++ [{ userMsg := "", toolsArg := Option.some cfg.tools.tools }]) := by
      simp only [agentLoop]
      rw [if_pos hne]
    have hrest : ∀ j, j < f → (oracle (k + 1 + j)).toolCalls ≠ [] := by
      intro j hj
      have := h (j + 1) (by omega)
      have harith : k + (j + 1) = k + 1 + j := by omega
      rwa [harith] at this
    obtain ⟨ha, hl⟩ := ih (i + 1) (k + 1)
      (process_tool_calls cfg.tools (oracle k).toolCalls
        (chatEffect cfg.noThink msgs "" Option.none (oracle k))).1
      (log ++ (oracle k).toolCalls.map (logEntry i))
      (calls ++ [{ userMsg := "", toolsArg := Option.some cfg.tools.tools }]) hrest
    rw [hunfold]
    refine ⟨ha, ?_⟩
    rw [hl]
    simp
    omega

/-- C2: if each of the first N gateway responses contains at least one tool
call (N = the configured `max_iterations`), `autonomous_mode` performs
exactly N iterations — one gateway call each — and then returns normally
(the loop is a total function, so no exception escapes) with the message
`"I've reached the maximum number of steps (N) without completing the
task. …"`, which contains the literal text `"maximum number of steps"`
followed by the `[Execution Summary]` header and the execution log
accumulated so far. -/
theorem autonomous_mode_iteration_cap (cfg : AgentConfig) (oracle : Nat → GwResponse)
    (um : String)
    (h : ∀ j, j < cfg.maxIterations → (oracle j).toolCalls ≠ []) :
    (autonomous_mode cfg oracle um).calls.length = cfg.maxIterations ∧
    (autonomous_mode cfg oracle um).answer =
      "I've reached the maximum number of steps (" ++ toString cfg.maxIterations
        ++ ") without completing the task. Here's what I've done so far:\n\n[Execution Summary]\n"
        ++ String.intercalate "\n" (autonomous_mode cfg oracle um).log := by
  have h' : ∀ j, j < cfg.maxIterations → (oracle (0 + j)).toolCalls ≠ [] := by
    intro j hj
    simpa using h j hj
  obtain ⟨ha, hl⟩ := agentLoop_capped cfg oracle cfg.maxIterations 0 0
    (add_message (add_message [] "system" (PyValue.str cfg.systemPrompt) Option.none)
      "user" (PyValue.str ("Task: " ++ um)) Option.none) [] [] h'
  constructor
  · simpa [autonomous_mode] using hl
  · simpa [autonomous_mode] using ha

/-- Test fixture: configuration with a two-iteration budget, used to
exercise the cap concretely. -/
def capCfg2 : AgentConfig :=
  { maxIterations := 2, noThink := true, systemPrompt := "prompt", tools := emptyTools }

/-- Witness for C2: the always-tool-calling stub against a budget of 2
yields exactly 2 gateway calls and the capped-outcome message. -/
theorem autonomous_mode_iteration_cap_witness :
    (∀ j, j < capCfg2.maxIterations → (capOracle j).toolCalls ≠ []) ∧
    ((autonomous_mode capCfg2 capOracle "task").calls.length = capCfg2.maxIterations ∧
     (autonomous_mode capCfg2 capOracle "task").answer =
       "I've reached the maximum number of steps (" ++ toString capCfg2.maxIterations
         ++ ") without completing the task. Here's what I've done so far:\n\n[Execution Summary]\n"
         ++ String.intercalate "\n" (autonomous_mode capCfg2 capOracle "task").log) :=
  ⟨fun j hj => by intro hcontra; simp [capOracle] at hcontra,
   autonomous_mode_iteration_cap capCfg2 capOracle "task"
     (fun j hj => by intro hcontra; simp [capOracle] at hcontra)⟩

/-- C3: whenever a gateway response has no tool calls and blank content
(empty or whitespace-only), the loop makes exactly one additional gateway
call — recorded with `tools = None` and the fixed follow-up instruction —
and returns that follow-up call's content concatenated with the
`[Execution Summary]` section as the final answer.  The run ends right
there, so at most (indeed exactly) one recovery call is made per
empty-terminal event. -/
theorem empty_terminal_recovery (cfg : AgentConfig) (oracle : Nat → GwResponse)
    (fuel i k : Nat) (msgs : List Message) (log : List String) (calls : List GwCall)
    (h1 : (oracle k).toolCalls = []) (h2 : pyStrip (oracle k).content = "") :
    agentLoop cfg oracle (fuel + 1) i k msgs log calls =
      { answer := (oracle (k + 1)).content ++ "\n\n[Execution Summary]\n"
          ++ String.intercalate "\n"
              (log ++ ["Step " ++ toString (i + 1) ++ ": Final response"])
      , messages := chatEffect cfg.noThink
          (chatEffect cfg.noThink msgs "" Option.none (oracle k))
          followUpPrompt Option.none (oracle (k + 1))
      , log := log ++ ["Step " ++ toString (i + 1) ++ ": Final response"]
      , calls := calls ++ [{ userMsg := "", toolsArg := Option.some cfg.tools.tools },
                           { userMsg := followUpPrompt, toolsArg := Option.none }] } := by
  have hne : ¬((oracle k).toolCalls.isEmpty = false) := by
    rw [h1]
    simp
  have hc : ¬(pyStrip (oracle k).content ≠ "") := by
    rw [h2]
    simp
  simp only [agentLoop]
  rw [if_neg hne, if_neg hc]
  simp

/-- Test fixture: a gateway stub whose first response is entirely empty and
whose second (the recovery call's) answers with a summary text. -/
def emptyThenSummaryOracle : Nat → GwResponse := fun n =>
  if n = 0 then { content := "  ", toolCalls := [] }
  else { content := "All done.", toolCalls := [] }

/-- Witness for C3: the empty first response triggers exactly one recovery
call whose content `"All done."` becomes the final answer. -/
theorem empty_terminal_recovery_witness :
    (emptyThenSummaryOracle 0).toolCalls = [] ∧
    pyStrip (emptyThenSummaryOracle 0).content = "" ∧
    agentLoop capCfg2 emptyThenSummaryOracle 2 0 0 [] [] [] =
      { answer := (emptyThenSummaryOracle 1).content ++ "\n\n[Execution Summary]\n"
          ++ String.intercalate "\n"
              (([] : List String) ++ ["Step " ++ toString (0 + 1) ++ ": Final response"])
      , messages := chatEffect capCfg2.noThink
          (chatEffect capCfg2.noThink [] "" Option.none (emptyThenSummaryOracle 0))
          followUpPrompt Option.none (emptyThenSummaryOracle 1)
      , log := ([] : List String) ++ ["Step " ++ toString (0 + 1) ++ ": Final response"]
      , calls := ([] : List GwCall)
          ++ [{ userMsg := "", toolsArg := Option.some capCfg2.tools.tools },
              { userMsg := followUpPrompt, toolsArg := Option.none }] } :=
  ⟨rfl, by decide,
   empty_terminal_recovery capCfg2 emptyThenSummaryOracle 1 0 0 [] [] [] rfl (by decide)⟩

/-! ## Conversation ordering invariant (claim C9) -/

/-- Every `tool` message is preceded, somewhere earlier in the sequence, by
an `assistant` message: an assistant occurs among the strictly earlier
messages. -/
def ToolInv (msgs : List Message) : Prop :=
  ∀ i, ∀ hi : i < msgs.length, (msgs.get ⟨i, hi⟩).role = "tool" →
    ∃ m ∈ msgs.take i, m.role = "assistant"

/-- Some message of the conversation has the `assistant` role. -/
def HasAssistant (msgs : List Message) : Prop :=
  ∃ m ∈ msgs, m.role = "assistant"

/-- A conversation without `tool` messages satisfies the invariant
vacuously. -/
theorem toolInv_of_no_tool (msgs : List Message)
    (h : ∀ m ∈ msgs, m.role ≠ "tool") : ToolInv msgs := by
  intro i hi hrole
  exact absurd hrole (h _ (List.get_mem msgs i hi))

/-- Appending a single non-`tool` message preserves the invariant. -/
theorem toolInv_append_nontool (msgs : List Message) (m : Message)
    (hinv : ToolInv msgs) (hm : m.role ≠ "tool") : ToolInv (msgs ++ [m]) := by
  intro i hi hrole
  by_cases hlt : i < msgs.length
  · have hget : (msgs ++ [m]).get ⟨i, hi⟩ = msgs.get ⟨i, hlt⟩ := by
      rw [List.get_append i hlt]
    rw [hget] at hrole
    obtain ⟨w, hw, hwrole⟩ := hinv i hlt hrole
    refine ⟨w, ?_, hwrole⟩
    rw [List.take_append_of_le_length (by omega)]
    exact hw
  · have hi' : i = msgs.length := by
      have := hi
      simp at this
      omega
    subst hi'
    have hget : (msgs ++ [m]).get ⟨msgs.length, hi⟩ = m := by
      simp
    rw [hget] at hrole
    exact absurd hrole hm

/-- Once an assistant message is present, appending *any* block of messages
preserves the invariant: every tool message in the appended block is
preceded by that assistant. -/
theorem toolInv_append_of_hasAssistant (msgs : List Message) (l : List Message)
    (hinv : ToolInv msgs) (ha : HasAssistant msgs) : ToolInv (msgs ++ l) := by
  intro i hi hrole
  by_cases hlt : i < msgs.length
  · have hget : (msgs ++ l).get ⟨i, hi⟩ = msgs.get ⟨i, hlt⟩ := by
      rw [List.get_append i hlt]
    rw [hget] at hrole
    obtain ⟨w, hw, hwrole⟩ := hinv i hlt hrole
    refine ⟨w, ?_, hwrole⟩
    rw [List.take_append_of_le_length (by omega)]
    exact hw
  · obtain ⟨a, haMem, haRole⟩ := ha
    refine ⟨a, ?_, haRole⟩
    rw [List.take_append_eq_append_take]
    apply List.mem_append_left
    rw [List.take_of_length_le (by omega)]
    exact haMem

/-- The predicate `HasAssistant` is stable under append. -/
theorem hasAssistant_append (msgs l : List Message) (h : HasAssistant msgs) :
    HasAssistant (msgs ++ l) := by
  obtain ⟨m, hm, hrole⟩ := h
  exact ⟨m, List.mem_append_left l hm, hrole⟩

/-- Appending any block of non-`tool` messages preserves the invariant. -/
theorem toolInv_append_nontool_list (l : List Message) :
    ∀ (msgs : List Message), ToolInv msgs → (∀ m ∈ l, m.role ≠ "tool") →
      ToolInv (msgs ++ l) := by
  induction l with
  | nil => intro msgs hinv _; simpa using hinv
  | cons m l' ih =>
    intro msgs hinv h
    have h1 : ToolInv (msgs ++ [m]) :=
      toolInv_append_nontool msgs m hinv (h m (by simp))
    have h2 := ih (msgs ++ [m]) h1 (fun x hx => h x (by simp [hx]))
    simpa using h2

/-- A `chat` call preserves the invariant and leaves an assistant message in
the conversation. -/
theorem chatEffect_toolInv (nt : Bool) (msgs : List Message) (um : String)
    (sm : Option String) (resp : GwResponse) (hinv : ToolInv msgs) :
    ToolInv (chatEffect nt msgs um sm resp) ∧
    HasAssistant (chatEffect nt msgs um sm resp) := by
  obtain ⟨pre, hpre, heq⟩ := chatEffect_decomp nt msgs um sm resp
  rw [heq]
  constructor
  · rw [List.append_assoc]
    apply toolInv_append_nontool_list _ msgs hinv
    intro m hm
    simp at hm
    rcases hm with hm | hm
    · rcases (hpre m hm).1 with h | h <;> simp [h]
    · simp [hm]
  · refine ⟨{ role := "assistant", content := PyValue.str resp.content
            , name := Option.none, toolCalls := [] }, ?_, rfl⟩
    simp

/-- Dispatching a batch of tool calls preserves the invariant as soon as an
assistant message is already present. -/
theorem process_tool_calls_toolInv (t : Tools) (tcs : List ToolCall)
    (msgs : List Message) (hinv : ToolInv msgs) (ha : HasAssistant msgs) :
    ToolInv (process_tool_calls t tcs msgs).1 ∧
    HasAssistant (process_tool_calls t tcs msgs).1 := by
  rw [process_tool_calls_eq]
  exact ⟨toolInv_append_of_hasAssistant _ _ hinv ha, hasAssistant_append _ _ ha⟩

/-- The loop preserves the invariant from any starting conversation. -/
theorem agentLoop_toolInv (cfg : AgentConfig) (oracle : Nat → GwResponse) :
    ∀ (fuel i k : Nat) (msgs : List Message) (log : List String) (calls : List GwCall),
      ToolInv msgs →
      ToolInv (agentLoop cfg oracle fuel i k msgs log calls).messages := by
  intro fuel
  induction fuel with
  | zero => intro i k msgs log calls hinv; simpa [agentLoop] using hinv
  | succ f ih =>
    intro i k msgs log calls hinv
    obtain ⟨hinv1, ha1⟩ := chatEffect_toolInv cfg.noThink msgs "" Option.none (oracle k) hinv
    simp only [agentLoop]
    by_cases h : (oracle k).toolCalls.isEmpty = false
    · rw [if_pos h]
      exact ih _ _ _ _ _ (process_tool_calls_toolInv _ _ _ hinv1 ha1).1
    · rw [if_neg h]
      by_cases hc : pyStrip (oracle k).content ≠ ""
      · rw [if_pos hc]
        exact hinv1
      · rw [if_neg hc]
        exact (chatEffect_toolInv cfg.noThink _ followUpPrompt Option.none
          (oracle (k + 1)) hinv1).1

/-- C9: in every conversation state reachable by running the agent loop,
each `tool` message is preceded somewhere earlier by an `assistant`
message — and, per the second conjunct, by the very assistant message of
the response that requested it: a dispatching iteration extends the
conversation with the response's assistant message immediately followed by
that response's tool-result messages.  (Since conversations only grow by
appending, every intermediate state is a prefix of the final one and the
prefix-closed invariant holds throughout the run.) -/
theorem tool_message_preceded_by_assistant :
    (∀ (cfg : AgentConfig) (oracle : Nat → GwResponse) (um : String),
       ToolInv (autonomous_mode cfg oracle um).messages) ∧
    (∀ (t : Tools) (nt : Bool) (msgs : List Message) (resp : GwResponse),
       (process_tool_calls t resp.toolCalls (chatEffect nt msgs "" Option.none resp)).1
         = msgs ++ ({ role := "assistant", content := PyValue.str resp.content
                    , name := Option.none, toolCalls := [] } : Message)
             :: resp.toolCalls.map (dispatchMessage t)) := by
  constructor
  · intro cfg oracle um
    apply agentLoop_toolInv
    apply toolInv_of_no_tool
    intro m hm
    simp [add_message] at hm
    rcases hm with hm | hm
    · rw [hm]; simp
    · rw [hm]; simp
  · intro t nt msgs resp
    have hnz : ¬(pyStrip "" ≠ "") := by decide
    have heff : chatEffect nt msgs "" Option.none resp
        = msgs ++ [{ role := "assistant", content := PyValue.str resp.content
                   , name := Option.none, toolCalls := [] }] := by
      simp only [chatEffect]
      rw [if_neg hnz]
      simp [add_message, nameTruthy]
    rw [process_tool_calls_eq, heff]
    simp
